import Mathlib

/-!
Verification development for the ledger engine of the decentralized voting
platform.  The repository contains two independent implementations:

* `src/core/blockchain.py` — the mining-side `Block` / `Blockchain`
  (namespace `Core` below);
* `src/pipeline/blockchain_sync.py` — the sync-side `Block` / `Blockchain`
  (namespace `Sync` below).

Digests are modelled symbolically: SHA-256 over the canonical JSON
serialization is represented by a free constructor applied to exactly the
serialized fields, so two digests are equal iff their pre-images are equal
(a collision-free model of the hash).  Python's `json.dumps(self.__dict__,
sort_keys=True)` serializes whichever attributes exist at call time: inside
`__init__` the `hash` attribute is not yet set, so five fields are hashed
(`coreInit` / `syncInit`); at any later call the stored `hash` attribute is
included as a sixth field (`coreFull` / `syncFull`).  Plain strings used as
digest values (such as the genesis sentinel `"0"`) are injected by `str`.
-/

/-- A transaction payload (`Dict[str, Any]` in the source), modelled as an
association list of string key/value pairs; its content is opaque to the
ledger engine. -/
abbrev Tx := List (String × String)

/-- Symbolic digest values.  `str s` is a literal string used where a digest
is expected (e.g. the genesis `previous_hash` sentinel `"0"`); the other
constructors are SHA-256 applied to the canonical serialization of the
listed fields.  `coreInit`/`syncInit` carry the five fields serialized when
`compute_hash` runs inside `__init__` (no `hash` attribute yet);
`coreFull`/`syncFull` carry the six fields serialized by any call after
construction, the stored `hash` included. -/
inductive Digest where
  | str (s : String) : Digest
  | coreInit (index : Nat) (timestamp : Nat) (transactions : List Tx)
      (previous : Digest) (nonce : Nat) : Digest
  | coreFull (index : Nat) (timestamp : Nat) (transactions : List Tx)
      (previous : Digest) (nonce : Nat) (h : Digest) : Digest
  | syncInit (index : Nat) (timestamp : String) (payload : Tx)
      (previous : Digest) (nonce : Nat) : Digest
  | syncFull (index : Nat) (timestamp : String) (payload : Tx)
      (previous : Digest) (nonce : Nat) (h : Digest) : Digest
deriving DecidableEq, Repr

namespace Core

/-- `Block` of `src/core/blockchain.py`: fields `index`, `timestamp`,
`transactions`, `previous_hash`, `nonce`, `hash` (the Python float
timestamp is modelled as a `Nat`; no claim inspects its value). -/
structure Block where
  index : Nat
  timestamp : Nat
  transactions : List Tx
  previous_hash : Digest
  nonce : Nat
  hash : Digest
deriving DecidableEq, Repr

/-- `Block.compute_hash` as called after construction: `self.__dict__` then
holds all six attributes, the stored `hash` included. -/
def Block.compute_hash (b : Block) : Digest :=
  .coreFull b.index b.timestamp b.transactions b.previous_hash b.nonce b.hash

/-- `Block.__init__(index, timestamp, transactions, previous_hash, nonce)`:
the eager `self.hash = self.compute_hash()` runs while `self.__dict__` holds
only the five non-hash attributes. -/
def mkBlock (index timestamp : Nat) (transactions : List Tx)
    (previous_hash : Digest) (nonce : Nat) : Block :=
  { index := index, timestamp := timestamp, transactions := transactions,
    previous_hash := previous_hash, nonce := nonce,
    hash := .coreInit index timestamp transactions previous_hash nonce }

/-- `Blockchain` of `src/core/blockchain.py` (the lock is a concurrency
artefact with no sequential content and is not modelled). -/
structure Blockchain where
  chain : List Block
  unconfirmed_transactions : List Tx
  difficulty : Nat
deriving DecidableEq, Repr

/-- `Blockchain.__init__(difficulty)` followed by `create_genesis_block`:
the genesis block is `Block(index=0, timestamp=time.time(), transactions=[],
previous_hash="0")`.  The wall-clock timestamp is a parameter. -/
def newBlockchain (difficulty timestamp : Nat) : Blockchain :=
  { chain := [mkBlock 0 timestamp [] (.str "0") 0],
    unconfirmed_transactions := [], difficulty := difficulty }

/-- `Blockchain.add_transaction`. -/
def add_transaction (bc : Blockchain) (t : Tx) : Blockchain :=
  { bc with unconfirmed_transactions := bc.unconfirmed_transactions ++ [t] }

/-- One pass of the `while` loop of `Blockchain.proof_of_work`, fuelled to
stay total: `D` is the difficulty predicate the source evaluates as
`block.hash.startswith("0" * difficulty)`.  Each iteration increments
`nonce` and re-assigns `block.hash = block.compute_hash()`, where
`compute_hash` now serializes the *stale* stored hash as part of its input.
`none` means the fuel ran out (the source loop would still be running). -/
def proof_of_work (D : Digest → Nat → Bool) (difficulty : Nat) :
    Nat → Block → Option Block
  | 0, b => if D b.hash difficulty then some b else none
  | fuel + 1, b =>
      if D b.hash difficulty then some b
      else
        proof_of_work D difficulty fuel
          { b with nonce := b.nonce + 1,
                   hash := Block.compute_hash { b with nonce := b.nonce + 1 } }

/-- `Blockchain.mine`: on an empty pending pool it returns `None`
immediately; otherwise it builds a candidate on the current tail, runs
proof-of-work, appends, and clears the pool.  The outer `Option` is the
fuel: `none` means proof-of-work did not finish within `fuel` iterations
(or the chain was empty, in which case `self.chain[-1]` would raise); the
inner `Option Block` is the source's `Optional[Block]` return value. -/
def mine (D : Digest → Nat → Bool) (fuel : Nat) (timestamp : Nat)
    (bc : Blockchain) : Option (Option Block × Blockchain) :=
  if bc.unconfirmed_transactions.isEmpty then some (none, bc)
  else
    match bc.chain.getLast? with
    | none => none
    | some last =>
        match proof_of_work D bc.difficulty fuel
            (mkBlock (last.index + 1) timestamp bc.unconfirmed_transactions
              last.hash 0) with
        | none => none
        | some b =>
            some (some b,
              { bc with chain := bc.chain ++ [b],
                        unconfirmed_transactions := [] })

/-- The body of `Blockchain.is_valid_chain` for one adjacent pair
`(previous, current)`: first the recomputed-hash check, then the
previous-hash link check. -/
def validAdj (previous current : Block) : Bool :=
  if current.hash ≠ current.compute_hash then false
  else if current.previous_hash ≠ previous.hash then false
  else true

/-- The `for i in range(1, len(chain))` loop of `Blockchain.is_valid_chain`,
short-circuiting at the first failing pair. -/
def validChainList : List Block → Bool
  | [] => true
  | [_] => true
  | a :: b :: rest => validAdj a b && validChainList (b :: rest)

/-- `Blockchain.is_valid_chain`, validating `self.chain`. -/
def is_valid_chain (bc : Blockchain) : Bool :=
  validChainList bc.chain

/-- A block record on the wire (`Dict[str, Any]`).  `hash` is an `Option`
because a dictionary may or may not carry the key; the snapshot wire format
of the spec always includes it, as does `to_dict`. -/
structure Record where
  index : Nat
  timestamp : Nat
  transactions : List Tx
  previous_hash : Digest
  nonce : Nat
  hash : Option Digest
deriving DecidableEq, Repr

/-- Python error outcomes surfaced by the embedding. -/
inductive PyErr where
  | typeError : PyErr
deriving DecidableEq, Repr

/-- `Blockchain.to_dict`: `block.__dict__` carries all six attributes, the
stored `hash` included. -/
def to_dict (bc : Blockchain) : List Record :=
  bc.chain.map fun b =>
    { index := b.index, timestamp := b.timestamp,
      transactions := b.transactions, previous_hash := b.previous_hash,
      nonce := b.nonce, hash := some b.hash }

/-- `Block(**block_data)`: `Block.__init__` has no `hash` parameter, so a
record carrying a `hash` key raises `TypeError: unexpected keyword
argument`; otherwise the block is rebuilt and its hash recomputed from the
five constructor fields. -/
def blockFromRecord (r : Record) : Except PyErr Block :=
  match r.hash with
  | some _ => .error .typeError
  | none => .ok (mkBlock r.index r.timestamp r.transactions r.previous_hash r.nonce)

/-- `Blockchain.from_dict`: the list comprehension
`[Block(**block_data) for block_data in chain_data]`, propagating the first
exception. -/
def from_dict (bc : Blockchain) (chain_data : List Record) :
    Except PyErr Blockchain :=
  (chain_data.mapM blockFromRecord).map fun blocks => { bc with chain := blocks }

/-- The `for chain_data in other_chains` loop of
`Blockchain.resolve_conflicts`: rebuilds each candidate and adopts it when
it is longer than the current maximum **and** `self.is_valid_chain()` holds
— the source validates the *local* chain, never the candidate. -/
def resolveLoop (bc : Blockchain) :
    List (List Record) → Nat → Option (List Block) →
    Except PyErr (Option (List Block))
  | [], _, longest => .ok longest
  | chain_data :: rest, maxLen, longest =>
      match chain_data.mapM blockFromRecord with
      | .error e => .error e
      | .ok chain =>
          if chain.length > maxLen && is_valid_chain bc then
            resolveLoop bc rest chain.length (some chain)
          else
            resolveLoop bc rest maxLen longest

/-- `Blockchain.resolve_conflicts` of `src/core/blockchain.py`: returns the
source's boolean (replaced or not) together with the resulting chain
state. -/
def resolve_conflicts (bc : Blockchain) (other_chains : List (List Record)) :
    Except PyErr (Bool × Blockchain) :=
  (resolveLoop bc other_chains bc.chain.length none).map fun longest =>
    match longest with
    | some c => (true, { bc with chain := c })
    | none => (false, bc)

end Core

namespace Sync

/-- `Block` of `src/pipeline/blockchain_sync.py`: `timestamp` is a string
(`str(datetime.utcnow())`) and the payload field is named `data`. -/
structure Block where
  index : Nat
  timestamp : String
  data : Tx
  previous_hash : Digest
  nonce : Nat
  hash : Digest
deriving DecidableEq, Repr

/-- Sync-side `Block.compute_hash` as called after construction: all six
attributes of `self.__dict__` are serialized, the stored `hash` included. -/
def Block.compute_hash (b : Block) : Digest :=
  .syncFull b.index b.timestamp b.data b.previous_hash b.nonce b.hash

/-- Sync-side `Block.__init__`: the eager hash is computed over the five
non-hash attributes. -/
def mkBlock (index : Nat) (timestamp : String) (data : Tx)
    (previous_hash : Digest) (nonce : Nat) : Block :=
  { index := index, timestamp := timestamp, data := data,
    previous_hash := previous_hash, nonce := nonce,
    hash := .syncInit index timestamp data previous_hash nonce }

/-- `Blockchain.create_genesis_block` of the sync module:
`Block(0, str(datetime.utcnow()), {"message": "Genesis Block"}, "0")`.
The wall-clock timestamp string is a parameter. -/
def create_genesis_block (timestamp : String) : Block :=
  mkBlock 0 timestamp [("message", "Genesis Block")] (.str "0") 0

/-- `Blockchain.is_valid_block(block, previous_block)`: previous-hash link,
then index continuity, then recomputed hash, each short-circuiting to
`False`. -/
def is_valid_block (b previous_block : Block) : Bool :=
  if b.previous_hash ≠ previous_block.hash then false
  else if b.index ≠ previous_block.index + 1 then false
  else if b.hash ≠ b.compute_hash then false
  else true

/-- The `for i in range(1, len(chain))` loop of the sync-side
`Blockchain.is_valid_chain`. -/
def is_valid_chain : List Block → Bool
  | [] => true
  | [_] => true
  | a :: b :: rest => is_valid_block b a && is_valid_chain (b :: rest)

/-- `Blockchain.resolve_conflicts(neighbor_chains)` of the sync module:
scans for the longest neighbour chain that is strictly longer than the
running best **and** passes `is_valid_chain`, then swaps it in iff it
differs from the local chain.  Returns the source's boolean together with
the resulting chain. -/
def resolve_conflicts (chain : List Block) (neighbor_chains : List (List Block)) :
    Bool × List Block :=
  let longest := neighbor_chains.foldl
    (fun longest c =>
      if c.length > longest.length && is_valid_chain c then c else longest)
    chain
  if longest ≠ chain then (true, longest) else (false, chain)

end Sync

/-! ## Basic digest lemmas: the symbolic hash has no fixed points -/

/-- A core post-construction digest is never equal to the hash field it
serializes (structural acyclicity of the symbolic hash). -/
theorem coreFull_ne_hash (i t : Nat) (txs : List Tx) (p : Digest) (n : Nat)
    (h : Digest) : Digest.coreFull i t txs p n h ≠ h := by
  intro e
  have hs := congrArg sizeOf e
  simp at hs

/-- A sync post-construction digest is never equal to the hash field it
serializes. -/
theorem syncFull_ne_hash (i : Nat) (t : String) (d : Tx) (p : Digest)
    (n : Nat) (h : Digest) : Digest.syncFull i t d p n h ≠ h := by
  intro e
  have hs := congrArg sizeOf e
  simp at hs

/-- For every core block, `compute_hash` re-invoked after construction
differs from the stored hash, because it serializes the stored hash itself
as part of its input. -/
theorem core_recompute_ne_stored (b : Core.Block) :
    b.compute_hash ≠ b.hash := by
  simpa [Core.Block.compute_hash] using
    coreFull_ne_hash b.index b.timestamp b.transactions b.previous_hash b.nonce b.hash

/-- Sync side of `core_recompute_ne_stored`. -/
theorem sync_recompute_ne_stored (b : Sync.Block) :
    b.compute_hash ≠ b.hash := by
  simpa [Sync.Block.compute_hash] using
    syncFull_ne_hash b.index b.timestamp b.data b.previous_hash b.nonce b.hash

/-! ## Claim C2 -/

/-- C2 (code bug): the claim says the stored hash equals the digest of
exactly the five other fields and that the hash field is never part of the
input to its own computation, including when `compute_hash` is re-invoked
after construction.  In both implementations `compute_hash` serializes
`self.__dict__`, which after construction contains the stored `hash`
attribute, so every re-invocation hashes six fields — hash included — and
its result never equals the stored hash. -/
theorem c2_recomputed_hash_serializes_hash_field :
    (∀ b : Core.Block, b.compute_hash ≠ b.hash) ∧
    (∀ b : Sync.Block, b.compute_hash ≠ b.hash) :=
  ⟨core_recompute_ne_stored, sync_recompute_ne_stored⟩

/-! ## Claim C7 -/

/-- C7: `mine()` on an empty pending pool returns the NoOp signal (`None`,
not an error) and leaves the whole blockchain state — chain sequence, its
length, and the pending pool — unchanged, for every difficulty predicate,
fuel, and timestamp. -/
theorem c7_mine_empty_pool_noop (D : Digest → Nat → Bool)
    (fuel timestamp : Nat) (bc : Core.Blockchain)
    (h : bc.unconfirmed_transactions = []) :
    Core.mine D fuel timestamp bc = some (none, bc) := by
  simp [Core.mine, h]

/-- Witness for C7 at a fresh difficulty-4 chain. -/
theorem c7_mine_empty_pool_noop_witness :
    (Core.newBlockchain 4 0).unconfirmed_transactions = [] ∧
    Core.mine (fun _ _ => true) 5 7 (Core.newBlockchain 4 0)
      = some (none, Core.newBlockchain 4 0) :=
  ⟨rfl, c7_mine_empty_pool_noop (fun _ _ => true) 5 7 (Core.newBlockchain 4 0) rfl⟩

/-! ## Claim C10 -/

/-- C10: a chain of length 1 passes full-chain validation in both
implementations regardless of the single block's field values — the
validators start at index 1, so the genesis block's own stored hash and
sentinel `previous_hash` are never inspected and tampering confined to
block 0 goes undetected. -/
theorem c10_singleton_chain_always_valid (b : Core.Block) (s : Sync.Block)
    (txs : List Tx) (d : Nat) :
    Core.is_valid_chain
        { chain := [b], unconfirmed_transactions := txs, difficulty := d } = true ∧
    Sync.is_valid_chain [s] = true :=
  ⟨rfl, rfl⟩

/-! ## Claim C1 -/

/-- The difficulty predicate instance for runs at difficulty 0: the source
evaluates `block.hash.startswith("0" * difficulty)`, and `"0" * 0` is the
empty string, so at difficulty 0 the source predicate is true for every
digest; at positive difficulties this instance understates the source
predicate, which a difficulty-0 run never consults. -/
def zeroDifficulty : Digest → Nat → Bool := fun _ d => decide (d = 0)

/-- C1 scenario: a fresh difficulty-0 chain with one enqueued vote. -/
def c1Start : Core.Blockchain :=
  Core.add_transaction (Core.newBlockchain 0 0) [("vote", "alice")]

/-- C1 (code bug): one successful `mine()` on a fresh genesis chain with a
non-empty pool yields a chain on which `is_valid_chain` returns `false`
(the recomputed hash of the mined block serializes its stored hash field
and can never match it), refuting the claim that chains built solely by
successful mining always validate. -/
theorem c1_mined_chain_fails_validation :
    (Core.mine zeroDifficulty 0 1 c1Start).map
        (fun r => (r.1.isSome, Core.is_valid_chain r.2, r.2.chain.length))
      = some (true, false, 2) := by decide

/-! ## Claim C3 -/

/-- C3 local state: a fresh (valid, length-1) difficulty-4 chain. -/
def c3Local : Core.Blockchain := Core.newBlockchain 4 0

/-- C3 candidate snapshot: two records (without `hash` keys, so that
`Block(**record)` does not raise) whose second block has a garbage
`previous_hash` and a non-contiguous index — a chain that fails full-chain
validation. -/
def c3Candidate : List Core.Record :=
  [ { index := 0, timestamp := 0, transactions := [],
      previous_hash := .str "0", nonce := 0, hash := none },
    { index := 5, timestamp := 0, transactions := [[("vote", "mallory")]],
      previous_hash := .str "garbage", nonce := 0, hash := none } ]

/-- C3 (code bug): `resolve_conflicts` of `src/core/blockchain.py` replaces
the local chain (returns `True`) with a longer candidate that fails
full-chain validation, because the guard evaluates `self.is_valid_chain()`
— validating the *local* chain — instead of validating the candidate.  The
adopted chain itself fails `is_valid_chain`. -/
theorem c3_adopts_longer_invalid_candidate :
    (Core.resolve_conflicts c3Local [c3Candidate]).map
        (fun r => (r.1, Core.is_valid_chain r.2, r.2.chain.length))
      = .ok (true, false, 2) := by rfl

/-! ## Claim C4 -/

/-- C4 (code bug): on the documented snapshot wire format — every block
record carrying all six fields, the `hash` field included — `from_dict`
raises `TypeError` (`Block.__init__` has no `hash` parameter) instead of
reconstructing the chain, and `resolve_conflicts` propagates the same
exception instead of returning a Replaced/Rejected boolean. -/
theorem c4_sixfield_records_raise (bc : Core.Blockchain)
    (rs : List Core.Record) (hne : rs ≠ [])
    (hall : ∀ r ∈ rs, r.hash.isSome = true) :
    Core.from_dict bc rs = .error .typeError ∧
    Core.resolve_conflicts bc [rs] = .error .typeError := by
  match rs, hne with
  | r :: rest, _ =>
    have hr : r.hash.isSome = true := hall r (List.mem_cons_self r rest)
    obtain ⟨d, hd⟩ := Option.isSome_iff_exists.mp hr
    constructor
    · simp only [Core.from_dict, List.mapM, List.mapM.loop,
        Core.blockFromRecord, hd]
      rfl
    · simp only [Core.resolve_conflicts, Core.resolveLoop, List.mapM,
        List.mapM.loop, Core.blockFromRecord, hd]
      rfl

/-- Witness for C4: the round trip of the module's own serializer — the
records `to_dict` emits for a fresh chain all carry the `hash` field, and
deserializing them back raises. -/
theorem c4_sixfield_records_raise_witness :
    (Core.to_dict (Core.newBlockchain 4 0) ≠ [] ∧
      ∀ r ∈ Core.to_dict (Core.newBlockchain 4 0), r.hash.isSome = true) ∧
    Core.from_dict (Core.newBlockchain 4 0)
        (Core.to_dict (Core.newBlockchain 4 0)) = .error .typeError ∧
    Core.resolve_conflicts (Core.newBlockchain 4 0)
        [Core.to_dict (Core.newBlockchain 4 0)] = .error .typeError :=
  ⟨⟨by decide, by decide⟩,
    c4_sixfield_records_raise (Core.newBlockchain 4 0)
      (Core.to_dict (Core.newBlockchain 4 0)) (by decide) (by decide)⟩

/-! ## Claim C5 -/

/-- The proof-of-work loop never touches `index`, `timestamp`,
`transactions` or `previous_hash`, and when it returns a block, that
block's digest satisfies the difficulty predicate (the loop's exit
condition). -/
theorem proof_of_work_spec (D : Digest → Nat → Bool) (d : Nat) :
    ∀ (fuel : Nat) (b r : Core.Block),
      Core.proof_of_work D d fuel b = some r →
      r.index = b.index ∧ r.timestamp = b.timestamp ∧
      r.transactions = b.transactions ∧ r.previous_hash = b.previous_hash ∧
      D r.hash d = true := by
  intro fuel
  induction fuel with
  | zero =>
    intro b r h
    unfold Core.proof_of_work at h
    split at h
    · cases h
      exact ⟨rfl, rfl, rfl, rfl, by assumption⟩
    · cases h
  | succ n ih =>
    intro b r h
    unfold Core.proof_of_work at h
    split at h
    · cases h
      exact ⟨rfl, rfl, rfl, rfl, by assumption⟩
    · have hh := ih _ _ h
      exact hh

/-- C5: whenever `mine()` returns a freshly mined block, that block's
`index` is the previous tail's index plus 1, its `previous_hash` is the
previous tail's stored hash, its digest satisfies the difficulty predicate
at the configured difficulty, and it is appended at the end of the chain.
(The source predicate `hash.startswith("0" * difficulty)` is the abstract
predicate `D`.) -/
theorem c5_mined_block_links_to_tail (D : Digest → Nat → Bool)
    (fuel timestamp : Nat) (bc : Core.Blockchain) (last b : Core.Block)
    (bc' : Core.Blockchain) (hlast : bc.chain.getLast? = some last)
    (h : Core.mine D fuel timestamp bc = some (some b, bc')) :
    b.index = last.index + 1 ∧ b.previous_hash = last.hash ∧
    D b.hash bc.difficulty = true ∧ bc'.chain = bc.chain ++ [b] := by
  unfold Core.mine at h
  split at h
  · cases h
  · rw [hlast] at h
    simp only at h
    cases hp : Core.proof_of_work D bc.difficulty fuel
        (Core.mkBlock (last.index + 1) timestamp
          bc.unconfirmed_transactions last.hash 0) with
    | none => rw [hp] at h; cases h
    | some r =>
      rw [hp] at h
      simp only [Option.some.injEq, Prod.mk.injEq] at h
      obtain ⟨hb, hbc⟩ := h
      obtain ⟨hi, _, _, hprev, hD⟩ :=
        proof_of_work_spec D bc.difficulty fuel _ r hp
      subst hb
      refine ⟨by simpa [Core.mkBlock] using hi,
        by simpa [Core.mkBlock] using hprev, hD, ?_⟩
      rw [← hbc]

/-- C5 witness scenario: fresh difficulty-2 chain. -/
def c5Genesis : Core.Block := Core.mkBlock 0 0 [] (.str "0") 0

/-- C5 witness scenario: the chain after enqueuing one vote. -/
def c5Pool : Core.Blockchain :=
  Core.add_transaction (Core.newBlockchain 2 0) [("vote", "alice")]

/-- C5 witness scenario: the mined block. -/
def c5Mined : Core.Block :=
  Core.mkBlock 1 1 [[("vote", "alice")]] c5Genesis.hash 0

/-- C5 witness scenario: the chain state after mining. -/
def c5After : Core.Blockchain :=
  { chain := c5Pool.chain ++ [c5Mined], unconfirmed_transactions := [],
    difficulty := 2 }

/-- Witness for C5: Scenario A of the spec — genesis-only chain, one
enqueued transaction, difficulty 2; the mined block has index 1,
`previous_hash` equal to the genesis hash, and a digest satisfying the
difficulty predicate. -/
theorem c5_mined_block_links_to_tail_witness :
    c5Pool.chain.getLast? = some c5Genesis ∧
    Core.mine (fun _ _ => true) 0 1 c5Pool = some (some c5Mined, c5After) ∧
    (c5Mined.index = c5Genesis.index + 1 ∧
      c5Mined.previous_hash = c5Genesis.hash ∧
      (fun _ _ => true) c5Mined.hash c5Pool.difficulty = true ∧
      c5After.chain = c5Pool.chain ++ [c5Mined]) :=
  ⟨rfl, rfl,
    c5_mined_block_links_to_tail (fun _ _ => true) 0 1 c5Pool c5Genesis
      c5Mined c5After rfl rfl⟩

/-! ## Claim C6 -/

/-- Any chain of length at least 2 fails the core validator: the recomputed
hash of its second block serializes the stored hash field and can never
match it. -/
theorem core_chain_ge_two_invalid (a b : Core.Block) (rest : List Core.Block) :
    Core.validChainList (a :: b :: rest) = false := by
  have h : Core.validAdj a b = false := by
    simp [Core.validAdj, Ne.symm (core_recompute_ne_stored b)]
  simp [Core.validChainList, h]

/-- Core full-chain validation fails on every chain that decomposes around
an adjacent pair (it fails on every chain of length ≥ 2). -/
theorem core_chain_split_invalid (pre post : List Core.Block) (p c : Core.Block) :
    Core.validChainList (pre ++ p :: c :: post) = false := by
  cases pre with
  | nil => exact core_chain_ge_two_invalid p c post
  | cons a pre' =>
    rw [List.cons_append]
    cases hl : pre' ++ p :: c :: post with
    | nil => simp at hl
    | cons x xs => exact core_chain_ge_two_invalid a x xs

/-- Sync-side `is_valid_block` rejects a block whose index is not the
predecessor's index plus one (whether or not the hash link also fails). -/
theorem sync_block_index_gap_invalid (p c : Sync.Block)
    (h : c.index ≠ p.index + 1) : Sync.is_valid_block c p = false := by
  simp [Sync.is_valid_block, h]

/-- A valid sync chain has a valid tail. -/
theorem sync_chain_cons_valid (x : Sync.Block) (xs : List Sync.Block)
    (h : Sync.is_valid_chain (x :: xs) = true) :
    Sync.is_valid_chain xs = true := by
  cases xs with
  | nil => rfl
  | cons y t =>
    have h2 : (Sync.is_valid_block y x && Sync.is_valid_chain (y :: t)) = true := h
    have h3 : Sync.is_valid_block y x = true ∧
        Sync.is_valid_chain (y :: t) = true := by simpa using h2
    exact h3.2

/-- If some adjacent pair fails `is_valid_block`, the whole sync chain
fails validation. -/
theorem sync_chain_split_invalid (pre post : List Sync.Block) (p c : Sync.Block)
    (h : Sync.is_valid_block c p = false) :
    Sync.is_valid_chain (pre ++ p :: c :: post) = false := by
  induction pre with
  | nil =>
    have he : Sync.is_valid_chain (p :: c :: post)
        = (Sync.is_valid_block c p && Sync.is_valid_chain (c :: post)) := rfl
    rw [List.nil_append, he, h, Bool.false_and]
  | cons a pre' ih =>
    rw [List.cons_append]
    cases hv : Sync.is_valid_chain (a :: (pre' ++ p :: c :: post)) with
    | false => rfl
    | true =>
      have ht := sync_chain_cons_valid a _ hv
      simp [ih] at ht

/-- C6: every chain containing an adjacent pair whose indices are not
contiguous fails full-chain validation, in both the mining-side and the
sync-side validators.  The sync-side `is_valid_block` checks previous-hash
linkage, then index continuity, then the recomputed hash, in that order;
the core validator has no index check but rejects every chain of length at
least 2 through its recomputed-hash check. -/
theorem c6_index_gap_fails_validation :
    (∀ (bc : Core.Blockchain) (pre post : List Core.Block) (p c : Core.Block),
        bc.chain = pre ++ p :: c :: post → c.index ≠ p.index + 1 →
        Core.is_valid_chain bc = false) ∧
    (∀ (pre post : List Sync.Block) (p c : Sync.Block),
        c.index ≠ p.index + 1 →
        Sync.is_valid_chain (pre ++ p :: c :: post) = false) := by
  constructor
  · intro bc pre post p c hchain _
    unfold Core.is_valid_chain
    rw [hchain]
    exact core_chain_split_invalid pre post p c
  · intro pre post p c h
    exact sync_chain_split_invalid pre post p c
      (sync_block_index_gap_invalid p c h)

/-- C6 witness scenario: core genesis block. -/
def c6CoreA : Core.Block := Core.mkBlock 0 0 [] (.str "0") 0

/-- C6 witness scenario: core successor with index 5 instead of 1. -/
def c6CoreB : Core.Block := Core.mkBlock 5 0 [] c6CoreA.hash 0

/-- C6 witness scenario: the core blockchain with the index gap. -/
def c6CoreChain : Core.Blockchain :=
  { chain := [c6CoreA, c6CoreB], unconfirmed_transactions := [],
    difficulty := 4 }

/-- C6 witness scenario: sync genesis block. -/
def c6SyncA : Sync.Block := Sync.mkBlock 0 "t" [] (.str "0") 0

/-- C6 witness scenario: sync successor with index 7 instead of 1. -/
def c6SyncB : Sync.Block := Sync.mkBlock 7 "t" [] c6SyncA.hash 0

/-- Witness for C6: a concrete index gap (0 followed by 5, resp. 0
followed by 7) makes both validators return false. -/
theorem c6_index_gap_fails_validation_witness :
    (c6CoreChain.chain = [] ++ c6CoreA :: c6CoreB :: [] ∧
      c6CoreB.index ≠ c6CoreA.index + 1 ∧
      Core.is_valid_chain c6CoreChain = false) ∧
    (c6SyncB.index ≠ c6SyncA.index + 1 ∧
      Sync.is_valid_chain ([] ++ c6SyncA :: c6SyncB :: []) = false) :=
  ⟨⟨rfl, by decide,
      c6_index_gap_fails_validation.1 c6CoreChain [] [] c6CoreA c6CoreB rfl
        (by decide)⟩,
    ⟨by decide, c6_index_gap_fails_validation.2 [] [] c6SyncA c6SyncB (by decide)⟩⟩

/-! ## Claim C8 -/

/-- C8 counterexample: the claim fails on the code.  The sync-side genesis
block's payload is the non-empty dictionary with entry
`message -> "Genesis Block"`, not an empty transactions sequence; and the
core genesis `previous_hash` is the one-character string `"0"`, not the
64-character all-zero digest. -/
theorem c8_genesis_claim_counterexample :
    (Sync.create_genesis_block "t").data ≠ [] ∧
    ((Core.newBlockchain 4 0).chain.map Core.Block.previous_hash
        = [Digest.str "0"] ∧
      Digest.str "0" ≠ Digest.str (String.mk (List.replicate 64 '0'))) := by
  refine ⟨by decide, rfl, ?_⟩
  decide

/-- C8 amended: in both implementations the genesis block has index 0 and
`previous_hash` equal to the fixed one-character sentinel string `"0"`
(not an all-zero digest); the core genesis has an empty transactions list,
while the sync genesis carries the payload `message -> "Genesis Block"`. -/
theorem c8_genesis_fields (difficulty timestamp : Nat) (ts : String) :
    (Core.newBlockchain difficulty timestamp).chain.map
        (fun b => (b.index, b.previous_hash, b.transactions))
      = [(0, Digest.str "0", ([] : List Tx))] ∧
    (Sync.create_genesis_block ts).index = 0 ∧
    (Sync.create_genesis_block ts).previous_hash = Digest.str "0" ∧
    (Sync.create_genesis_block ts).data = [("message", "Genesis Block")] :=
  ⟨rfl, rfl, rfl, rfl⟩

/-! ## Claim C9 -/

/-- Whether a character is a lowercase hexadecimal digit — the alphabet of
`hashlib.sha256(...).hexdigest()` (codes 48–57 are `0`–`9`, 97–102 are
`a`–`f`). -/
def isHexChar (c : Char) : Bool :=
  (48 ≤ c.toNat && c.toNat ≤ 57) || (97 ≤ c.toNat && c.toNat ≤ 102)

/-- Numeric value of a lowercase hexadecimal character. -/
def hexVal (c : Char) : Nat :=
  if 48 ≤ c.toNat ∧ c.toNat ≤ 57 then c.toNat - 48 else c.toNat - 87

/-- Modelled from the spec: the integer value of a hexadecimal digit
string, most significant character first (Python `int(h, 16)`). -/
def hexToNat : List Char → Nat
  | [] => 0
  | c :: t => hexVal c * 16 ^ t.length + hexToNat t

/-- The source's textual difficulty predicate
`hash.startswith("0" * difficulty)`: the digest string begins with `d`
zero characters. -/
def startsWithZeros (h : String) (d : Nat) : Bool :=
  decide (h.data.take d = List.replicate d '0')

/-- Modelled from the spec: the numeric difficulty formulation — the
integer value of the 64-character digest is strictly below the threshold
`16 ^ (64 - difficulty)`. -/
def numericDifficulty (h : String) (d : Nat) : Bool :=
  decide (hexToNat h.data < 16 ^ (64 - d))

/-- A hexadecimal character's value is below 16. -/
theorem hexVal_lt_16 (c : Char) (hc : isHexChar c = true) : hexVal c < 16 := by
  unfold isHexChar at hc
  simp only [Bool.or_eq_true, Bool.and_eq_true, decide_eq_true_eq] at hc
  unfold hexVal
  split <;> omega

/-- A hexadecimal character has value 0 exactly when it is `'0'`. -/
theorem hexVal_eq_zero_iff (c : Char) (hc : isHexChar c = true) :
    hexVal c = 0 ↔ c = '0' := by
  constructor
  · intro h0
    have ht : c.toNat = 48 := by
      unfold isHexChar at hc
      simp only [Bool.or_eq_true, Bool.and_eq_true, decide_eq_true_eq] at hc
      unfold hexVal at h0
      split at h0 <;> omega
    have hofn : Char.ofNat c.toNat = Char.ofNat 48 := by rw [ht]
    rw [Char.ofNat_toNat] at hofn
    rw [hofn]
  · intro h
    subst h
    decide

/-- The value of an all-hex string is below `16 ^ length`. -/
theorem hexToNat_lt (l : List Char) (hall : ∀ c ∈ l, isHexChar c = true) :
    hexToNat l < 16 ^ l.length := by
  induction l with
  | nil => decide
  | cons c t ih =>
    have hc := hall c (List.mem_cons_self c t)
    have ht := ih fun x hx => hall x (List.mem_cons_of_mem c hx)
    have hv := hexVal_lt_16 c hc
    calc hexToNat (c :: t)
        = hexVal c * 16 ^ t.length + hexToNat t := rfl
      _ < hexVal c * 16 ^ t.length + 16 ^ t.length := Nat.add_lt_add_left ht _
      _ = (hexVal c + 1) * 16 ^ t.length := by ring
      _ ≤ 16 * 16 ^ t.length := Nat.mul_le_mul_right _ (by omega)
      _ = 16 ^ (c :: t).length := by
          rw [List.length_cons, pow_succ, Nat.mul_comm]

/-- Core equivalence at the level of character lists: the first `d`
characters are `'0'` exactly when the numeric value is below
`16 ^ (length - d)`. -/
theorem take_zeros_iff_lt (d : Nat) (l : List Char) (hd : d ≤ l.length)
    (hall : ∀ c ∈ l, isHexChar c = true) :
    (l.take d = List.replicate d '0') ↔ hexToNat l < 16 ^ (l.length - d) := by
  induction d generalizing l with
  | zero =>
    simp only [List.take_zero, List.replicate_zero, Nat.sub_zero, true_iff]
    exact hexToNat_lt l hall
  | succ d ih =>
    cases l with
    | nil => simp at hd
    | cons c t =>
      have hc := hall c (List.mem_cons_self c t)
      have htall : ∀ x ∈ t, isHexChar x = true :=
        fun x hx => hall x (List.mem_cons_of_mem c hx)
      have hd' : d ≤ t.length := by
        simpa [Nat.succ_le_succ_iff] using hd
      have hlen : (c :: t).length - (d + 1) = t.length - d := by
        simp [List.length_cons]
      rw [hlen]
      constructor
      · intro h
        have hsplit : c = '0' ∧ t.take d = List.replicate d '0' := by
          rw [List.take_succ_cons, List.replicate_succ] at h
          exact ⟨List.head_eq_of_cons_eq h, List.tail_eq_of_cons_eq h⟩
        have hc0 : hexVal c = 0 := by
          rw [hsplit.1]
          decide
        have htlt := (ih t hd' htall).mp hsplit.2
        calc hexToNat (c :: t)
            = hexVal c * 16 ^ t.length + hexToNat t := rfl
          _ = hexToNat t := by rw [hc0]; ring
          _ < 16 ^ (t.length - d) := htlt
      · intro h
        have hle : 16 ^ (t.length - d) ≤ 16 ^ t.length :=
          Nat.pow_le_pow_right (by omega) (Nat.sub_le t.length d)
        have hc0 : hexVal c = 0 := by
          by_contra hne
          have h1 : 1 ≤ hexVal c := Nat.one_le_iff_ne_zero.mpr hne
          have : 16 ^ t.length ≤ hexToNat (c :: t) := by
            calc 16 ^ t.length
                = 1 * 16 ^ t.length := (Nat.one_mul _).symm
              _ ≤ hexVal c * 16 ^ t.length := Nat.mul_le_mul_right _ h1
              _ ≤ hexVal c * 16 ^ t.length + hexToNat t := Nat.le_add_right _ _
              _ = hexToNat (c :: t) := rfl
          omega
        have htlt : hexToNat t < 16 ^ (t.length - d) := by
          have he : hexToNat (c :: t) = hexToNat t := by
            show hexVal c * 16 ^ t.length + hexToNat t = hexToNat t
            rw [hc0]; ring
          rw [he] at h
          exact h
        rw [List.take_succ_cons, List.replicate_succ,
          (hexVal_eq_zero_iff c hc).mp hc0, (ih t hd' htall).mpr htlt]

/-- C9: for every 64-character lowercase hexadecimal digest string `h`
and every difficulty `0 ≤ d ≤ 64`, the source's textual predicate
(`h` begins with `d` zero characters) accepts exactly when the spec's
numeric predicate (integer value of `h` strictly below `16 ^ (64 - d)`)
accepts. -/
theorem c9_textual_numeric_equivalence (h : String) (d : Nat)
    (hlen : h.data.length = 64) (hd : d ≤ 64)
    (hall : ∀ c ∈ h.data, isHexChar c = true) :
    startsWithZeros h d = numericDifficulty h d := by
  unfold startsWithZeros numericDifficulty
  have := take_zeros_iff_lt d h.data (by omega) hall
  rw [hlen] at this
  simp only [decide_eq_decide]
  exact this

/-- Witness for C9 at a concrete 64-character digest (two leading zeros
followed by 62 `f`s) and difficulty 2. -/
theorem c9_textual_numeric_equivalence_witness :
    ((String.mk ('0' :: '0' :: List.replicate 62 'f')).data.length = 64 ∧
      2 ≤ 64 ∧
      ∀ c ∈ (String.mk ('0' :: '0' :: List.replicate 62 'f')).data,
        isHexChar c = true) ∧
    startsWithZeros (String.mk ('0' :: '0' :: List.replicate 62 'f')) 2
      = numericDifficulty (String.mk ('0' :: '0' :: List.replicate 62 'f')) 2 :=
  ⟨⟨by decide, by decide, by decide⟩,
    c9_textual_numeric_equivalence (String.mk ('0' :: '0' :: List.replicate 62 'f'))
      2 (by decide) (by decide) (by decide)⟩
